import Mathlib

/-!
Verification of the intent-aware merge engine of the Auto-Claude repository
(`workspace.py` and `workspace/git_utils.py`).

The Python code is shallowly embedded: pure string manipulation is
implemented directly, and every call into the outside world (the `git`
subprocess, the filesystem, the model transport, `difflib`, and the helper
modules that are not part of the sources) is abstracted as an explicit
oracle argument, so that each theorem quantifies over the environment's
behaviour and witnesses instantiate it with concrete executable functions.
-/

namespace AutoClaude

/-! ## Python string primitives -/

/-- ASCII lower-casing of one character, as Python `str.lower` acts on ASCII. -/
def asciiLower (c : Char) : Char :=
  if 'A' ≤ c ∧ c ≤ 'Z' then Char.ofNat (c.toNat + 32) else c

/-- Lower-case a string (ASCII model of Python `str.lower`). -/
def strLower (s : String) : String :=
  String.mk (s.data.map asciiLower)

/-- Python whitespace characters stripped by `str.strip()` (ASCII subset). -/
def isPyWs (c : Char) : Bool :=
  c = ' ' || c = '\t' || c = '\n' || c = '\r' || c = '\x0b' || c = '\x0c'

/-- Python `str.strip()`: remove leading and trailing whitespace. -/
def pyStrip (s : String) : String :=
  String.mk (((s.data.dropWhile isPyWs).reverse.dropWhile isPyWs).reverse)

/-- Number of newline characters in a string, as Python `s.count('\n')`. -/
def countNL (s : String) : Nat :=
  (s.data.filter (fun c => c = '\n')).length

/-- Substring search helper over character lists. -/
def containsSubAux (n : List Char) : List Char → Bool
  | [] => n.isEmpty
  | c :: rest => List.isPrefixOf n (c :: rest) || containsSubAux n rest

/-- Python `needle in hay` substring test. -/
def containsSub (needle hay : String) : Bool :=
  containsSubAux needle.data hay.data

/-- The component of a path after the last slash, as `pathlib.Path(p).name`. -/
def afterLastSlash (cs : List Char) : List Char :=
  cs.foldl (fun acc c => if c = '/' then [] else acc ++ [c]) []

/-- `pathlib.Path(p).suffix`: the final extension including the dot,
or `""` when the name has no interior dot. -/
def pySuffix (s : String) : String :=
  let nm := afterLastSlash s.data
  let r := nm.reverse
  match r.findIdx? (fun c => c = '.') with
  | none => ""
  | some j => if 0 < j ∧ j < nm.length - 1 then String.mk ((r.take (j + 1)).reverse) else ""

/-- Python boundary characters recognised by `str.splitlines`. -/
def isLineBoundary (c : Char) : Bool :=
  c = '\n' || c = '\r' || c = '\x0b' || c = '\x0c' ||
  c = '\x1c' || c = '\x1d' || c = '\x1e' || c = '\x85' ||
  c = '\u2028' || c = '\u2029'

/-- Worker for `str.splitlines(keepends=True)` over character lists.
The accumulator holds the current (reversed) partial line. -/
def splitLinesAux : List Char → List Char → List (List Char)
  | [], acc => if acc.isEmpty then [] else [acc.reverse]
  | '\r' :: '\n' :: rest, acc => (acc.reverse ++ ['\r', '\n']) :: splitLinesAux rest []
  | c :: rest, acc =>
    if isLineBoundary c then (acc.reverse ++ [c]) :: splitLinesAux rest []
    else splitLinesAux rest (c :: acc)
  termination_by l _ => l.length

/-- Python `str.splitlines(keepends=True)`, used by `_heuristic_merge`. -/
def pySplitLines (s : String) : List String :=
  (splitLinesAux s.data []).map String.mk

/-! ## Constants from `workspace.py` / `git_utils.py` -/

/-- `MAX_FILE_LINES_FOR_AI = 5000`. -/
def MAX_FILE_LINES_FOR_AI : Nat := 5000

/-- `MAX_PARALLEL_AI_MERGES = 5`. -/
def MAX_PARALLEL_AI_MERGES : Nat := 5

/-- `MERGE_LOCK_TIMEOUT = 300` seconds. -/
def MERGE_LOCK_TIMEOUT : Int := 300

/-- `BINARY_EXTENSIONS` set from the source. -/
def BINARY_EXTENSIONS : List String :=
  [".png", ".jpg", ".jpeg", ".gif", ".ico", ".webp", ".bmp", ".svg",
   ".pdf", ".doc", ".docx", ".xls", ".xlsx", ".ppt", ".pptx",
   ".zip", ".tar", ".gz", ".rar", ".7z",
   ".exe", ".dll", ".so", ".dylib", ".bin",
   ".mp3", ".mp4", ".wav", ".avi", ".mov", ".mkv",
   ".woff", ".woff2", ".ttf", ".otf", ".eot",
   ".pyc", ".pyo", ".class", ".o", ".obj"]

/-- `_is_binary_file`: extension-based binary test,
`Path(file_path).suffix.lower() in BINARY_EXTENSIONS`. -/
def is_binary_file (file_path : String) : Bool :=
  BINARY_EXTENSIONS.contains (strLower (pySuffix file_path))

/-- Python truthiness of an optional string: `None` and `""` are falsy. -/
def truthyO (o : Option String) : Bool :=
  match o with
  | none => false
  | some s => s ≠ ""

/-! ## `_heuristic_merge`

`difflib.unified_diff` is abstracted as an oracle `diff`; the source only
inspects whether the produced diff is empty. -/

/-- `_heuristic_merge(main_content, worktree_content, base_content)` from
`workspace.py`: with no base, prefer the worktree text; otherwise compute
line-level diffs base-to-main and base-to-worktree and pick the other side
when one diff is empty; `none` when both sides changed. -/
def heuristic_merge (diff : List String → List String → List String)
    (main_content worktree_content : String) (base_content : Option String) :
    Option String :=
  match base_content with
  | none => some worktree_content
  | some b =>
    let main_lines := pySplitLines main_content
    let worktree_lines := pySplitLines worktree_content
    let base_lines := pySplitLines b
    if diff base_lines main_lines = [] then some worktree_content
    else if diff base_lines worktree_lines = [] then some main_content
    else none

/-! ## `MergeLock` (`workspace.py`, `__enter__`)

The lock file's parsed JSON content is modelled as either undecodable or an
object with optional numeric `timestamp` and `pid` fields (those the code
reads via `.get`). Aliveness (`os.kill(pid, 0)`) is an oracle `kill_ok`. -/

/-- Parsed content of an existing `merge-<task_id>.lock` file. -/
inductive LockContent
  | corrupted
  | fields (timestamp : Option Int) (pid : Option Int)
deriving DecidableEq, Repr

/-- `is_process_running(pid)` from `git_utils.py`: the signal-0 probe,
abstracted over the operating system's answer `kill_ok`. -/
def is_process_running (kill_ok : Int → Bool) (pid : Int) : Bool :=
  kill_ok pid

/-- Outcome of `MergeLock.__enter__`. -/
inductive LockOutcome
  | acquired (reclaimed : Bool)
  | rejected
deriving DecidableEq, Repr

/-- `MergeLock.__enter__` given the existing lock file (if any): a stale
(older than 300 s) or orphaned (truthy pid whose process is gone) lock is
unlinked and re-acquired; a corrupted file is unlinked; otherwise a live
lock raises `MergeLockError`. -/
def mergeLockEnter (kill_ok : Int → Bool) (now : Int)
    (existing : Option LockContent) : LockOutcome :=
  match existing with
  | none => .acquired false
  | some .corrupted => .acquired true
  | some (.fields ts pid) =>
    let lock_time := ts.getD 0
    let lock_pid := pid.getD 0
    if now - lock_time > MERGE_LOCK_TIMEOUT then .acquired true
    else if lock_pid ≠ 0 ∧ is_process_running kill_ok lock_pid = false then .acquired true
    else .rejected

/-- The claim-side staleness condition: recorded timestamp older than 300 s,
or the recorded pid (0 when absent) fails the signal-0 liveness probe. -/
def staleOrOrphaned (kill_ok : Int → Bool) (now : Int)
    (ts pid : Option Int) : Prop :=
  now - ts.getD 0 > MERGE_LOCK_TIMEOUT ∨
    is_process_running kill_ok (pid.getD 0) = false

instance (kill_ok : Int → Bool) (now : Int) (ts pid : Option Int) :
    Decidable (staleOrOrphaned kill_ok now ts pid) := by
  unfold staleOrOrphaned; infer_instance

/-! ## The lock-acquisition race (`MergeLock.__enter__` interleaved)

`__enter__` is a check-then-create sequence: it first tests
`self.lock_file.exists()` and only afterwards calls `write_text`. Two
processes are modelled with a program counter each and a shared boolean
`fileOn` standing for the existence of the lock file; `stale` tells whether
an encountered lock file satisfies a reclaim rule. -/

/-- Program counter of one process running `MergeLock.__enter__`. -/
inductive LockPc
  | ready
  | toCreate
  | succeeded
  | blocked
deriving DecidableEq, Repr

/-- Shared state of two processes contending for the same lock file. -/
structure LockRace where
  fileOn : Bool
  pc1 : LockPc
  pc2 : LockPc
deriving DecidableEq, Repr

/-- One interleaving step of the two `__enter__` executions. A `ready`
process reads the existence of the lock file: absent means it proceeds to
create; present means it either reclaims (stale) or raises `MergeLockError`
(fresh). A `toCreate` process writes the lock file and proceeds. -/
inductive LockStep (stale : Bool) : LockRace → LockRace → Prop
  | check1_absent (s : LockRace) : s.pc1 = .ready → s.fileOn = false →
      LockStep stale s { s with pc1 := .toCreate }
  | check1_fresh (s : LockRace) : s.pc1 = .ready → s.fileOn = true → stale = false →
      LockStep stale s { s with pc1 := .blocked }
  | check1_stale (s : LockRace) : s.pc1 = .ready → s.fileOn = true → stale = true →
      LockStep stale s { s with fileOn := false, pc1 := .toCreate }
  | create1 (s : LockRace) : s.pc1 = .toCreate →
      LockStep stale s { s with fileOn := true, pc1 := .succeeded }
  | check2_absent (s : LockRace) : s.pc2 = .ready → s.fileOn = false →
      LockStep stale s { s with pc2 := .toCreate }
  | check2_fresh (s : LockRace) : s.pc2 = .ready → s.fileOn = true → stale = false →
      LockStep stale s { s with pc2 := .blocked }
  | check2_stale (s : LockRace) : s.pc2 = .ready → s.fileOn = true → stale = true →
      LockStep stale s { s with fileOn := false, pc2 := .toCreate }
  | create2 (s : LockRace) : s.pc2 = .toCreate →
      LockStep stale s { s with fileOn := true, pc2 := .succeeded }

/-- Reachability under interleaved lock-acquisition steps. -/
def lockReachable (stale : Bool) : LockRace → LockRace → Prop :=
  Relation.ReflTransGen (LockStep stale)

/-- Initial state: no lock file, both processes about to acquire. -/
def lockInit : LockRace := ⟨false, .ready, .ready⟩

/-! ## The two `git merge-file` wrappers

The subprocess `git merge-file -p main base worktree` is abstracted as an
oracle `gmf` mapping the three file contents to the pair
(exit code, standard output). -/

/-- A `git merge-file` subprocess oracle: (main, base, worktree) contents to
(return code, stdout). -/
def GitMergeFileOracle : Type := String → String → String → Nat × String

/-- `create_conflict_file_with_git` from `workspace/git_utils.py`: a falsy
base is replaced by an empty file, the merge always runs, and the result is
`(stdout, returncode == 1)`. -/
def create_conflict_file_with_git (gmf : GitMergeFileOracle)
    (main_content worktree_content : String) (base_content : Option String) :
    Option String × Bool :=
  let base_text := if truthyO base_content then base_content.getD "" else ""
  let r := gmf main_content base_text worktree_content
  (some r.2, r.1 == 1)

/-- `_create_conflict_file_with_git` defined later in `workspace.py`, which
shadows the imported one: a falsy base short-circuits to `(None, False)`;
a positive exit code counts as conflicts only when the output carries a
`<<<<<<` marker; any other nonzero exit yields `(None, False)`. -/
def create_conflict_file_with_git_ws (gmf : GitMergeFileOracle)
    (main_content worktree_content : String) (base_content : Option String) :
    Option String × Bool :=
  if truthyO base_content = false then (none, false)
  else
    let r := gmf main_content (base_content.getD "") worktree_content
    if r.1 > 0 ∧ containsSub "<<<<<<" r.2 then (some r.2, true)
    else if r.1 == 0 then (some r.2, false)
    else (none, false)

/-! ## `ParallelMergeTask` / `ParallelMergeResult` and the async worker -/

/-- `ParallelMergeTask` dataclass. -/
structure ParallelMergeTask where
  file_path : String
  main_content : String
  worktree_content : String
  base_content : Option String
  spec_name : String
deriving DecidableEq, Repr

/-- `ParallelMergeResult` dataclass. -/
structure ParallelMergeResult where
  file_path : String
  merged_content : Option String
  success : Bool
  error : Option String := none
  was_auto_merged : Bool := false
deriving DecidableEq, Repr

/-- One conflict hunk as returned by `parse_conflict_markers` (only the
fields the worker reads are retained). -/
structure PyConflict where
  main_lines : String
  worktree_lines : String
deriving DecidableEq, Repr

/-- Environment of `_merge_file_with_ai_async`: the `git merge-file`
subprocess, the syntax validator, `difflib`, the model transport, and the
helper functions of the `merge.prompts` module (absent from the sources)
are all oracles. `bodyRaised` is the message of an exception escaping the
`async with client` body, when one is raised. -/
structure WorkerEnv where
  gmf : GitMergeFileOracle
  validSyntax : String → String → Bool
  diff : List String → List String → List String
  clientAvailable : Bool
  bodyRaised : Option String
  parseConflicts : String → List PyConflict
  conflictResponse : String
  extractResolutions : String → List PyConflict → List String
  reassemble : String → List PyConflict → List String → String
  fullResponse : String
  extractCodeBlock : String → String
  looksLikeCode : String → Bool

/-- Observable outcome of one worker run: the returned result together with
the number of model calls it issued. -/
structure WorkerOutput where
  result : ParallelMergeResult
  aiCalls : Nat
deriving DecidableEq, Repr

/-- Case 3 of `_merge_file_with_ai_async` (full-file model merge): one model
call, extraction of a code block (or the stripped response when it looks
like code), syntax validation; every failure returns the
"AI could not merge file" result. `prev` counts model calls already made. -/
def workerFullFile (env : WorkerEnv) (task : ParallelMergeTask) (prev : Nat) :
    WorkerOutput :=
  let k := prev + 1
  let response := env.fullResponse
  if response ≠ "" then
    let merged0 := env.extractCodeBlock response
    let merged := if merged0 = "" ∧ env.looksLikeCode response then pyStrip response
                  else merged0
    if merged ≠ "" then
      if env.validSyntax task.file_path merged then
        ⟨⟨task.file_path, some merged, true, none, false⟩, k⟩
      else ⟨⟨task.file_path, none, false, some "AI could not merge file", false⟩, k⟩
    else ⟨⟨task.file_path, none, false, some "AI could not merge file", false⟩, k⟩
  else ⟨⟨task.file_path, none, false, some "AI could not merge file", false⟩, k⟩

/-- Case 2 of `_merge_file_with_ai_async` (conflict-only model merge) for a
marked body `m`, falling through to the full-file case on every failure. -/
def workerConflictOnly (env : WorkerEnv) (task : ParallelMergeTask) (m : String) :
    WorkerOutput :=
  let conflicts := env.parseConflicts m
  if conflicts ≠ [] then
    let response := env.conflictResponse
    if response ≠ "" then
      let resolutions := env.extractResolutions response conflicts
      if resolutions ≠ [] then
        let merged := env.reassemble m conflicts resolutions
        if env.validSyntax task.file_path merged then
          ⟨⟨task.file_path, some merged, true, none, false⟩, 1⟩
        else workerFullFile env task 1
      else workerFullFile env task 1
    else workerFullFile env task 1
  else workerFullFile env task 0

/-- `_merge_file_with_ai_async(task, project_dir, semaphore)`: binary and
size pre-checks, the native `git merge-file` attempt when the base is
truthy, then the model path under the semaphore — heuristic fallback when
the client is unavailable, exception conversion, conflict-only merge, and
full-file merge. -/
def mergeFileWithAiAsync (env : WorkerEnv) (task : ParallelMergeTask) :
    WorkerOutput :=
  if is_binary_file task.file_path then
    ⟨⟨task.file_path, none, false, some "Binary file - skipped", false⟩, 0⟩
  else
    let main_lines := countNL task.main_content
    let worktree_lines := countNL task.worktree_content
    let max_lines := max main_lines worktree_lines
    if max_lines > MAX_FILE_LINES_FOR_AI then
      ⟨⟨task.file_path, none, false,
        some ("File too large (" ++ toString max_lines ++ " lines)"), false⟩, 0⟩
    else
      let gm : Option String × Bool :=
        if truthyO task.base_content then
          create_conflict_file_with_git_ws env.gmf
            task.main_content task.worktree_content task.base_content
        else (none, false)
      let cleanHit : Bool :=
        truthyO gm.1 && gm.2 == false &&
          env.validSyntax task.file_path (gm.1.getD "")
      if cleanHit then
        ⟨⟨task.file_path, gm.1, true, none, true⟩, 0⟩
      else if env.clientAvailable = false then
        let h := heuristic_merge env.diff
          task.main_content task.worktree_content task.base_content
        ⟨⟨task.file_path, h, truthyO h, some "AI unavailable, used heuristic",
          false⟩, 0⟩
      else
        match env.bodyRaised with
        | some msg =>
          let h := heuristic_merge env.diff
            task.main_content task.worktree_content task.base_content
          ⟨⟨task.file_path, h, false, some msg, false⟩, 0⟩
        | none =>
          match gm with
          | (some m, true) =>
            if m ≠ "" then workerConflictOnly env task m
            else workerFullFile env task 0
          | _ => workerFullFile env task 0

/-! ## `_run_parallel_merges`

`asyncio.gather(*coroutines, return_exceptions=True)` returns one entry per
coroutine in input order; an entry is either the worker's result or the
exception it raised. `raises` tells, per task, whether its coroutine raised
and with which message (`str(result)`). -/

/-- One gathered coroutine: the raised exception's message, or the result of
`_merge_file_with_ai_async`. -/
def workerCoroutine (env : WorkerEnv) (raises : ParallelMergeTask → Option String)
    (task : ParallelMergeTask) : Except String ParallelMergeResult :=
  match raises task with
  | some msg => .error msg
  | none => .ok (mergeFileWithAiAsync env task).result

/-- `_run_parallel_merges(tasks, project_dir, max_concurrent)`: gather all
workers, then convert each raised exception into a failed
`ParallelMergeResult` for its own task, leaving all other entries intact. -/
def run_parallel_merges (env : WorkerEnv)
    (raises : ParallelMergeTask → Option String)
    (tasks : List ParallelMergeTask) : List ParallelMergeResult :=
  tasks.map (fun t =>
    match workerCoroutine env raises t with
    | .ok r => r
    | .error e => ⟨t.file_path, none, false, some e, false⟩)

/-! ## `_check_git_conflicts`

Each `git` subprocess run by the function is one oracle field; `none`
models a nonzero exit code. The regex extraction applied to lines carrying
`CONFLICT` is the oracle `conflictExtract` (already composed with
`.strip()`). -/

/-- Environment of one `_check_git_conflicts` run. -/
structure GitConflictEnv where
  current_branch : Option String
  merge_base : Option String
  main_commit : Option String
  spec_commit : Option String
  merge_tree_rc : Nat
  merge_tree_out : List String
  diff_main_files : List String
  diff_spec_files : List String
  conflictExtract : String → Option String

/-- The dict returned by `_check_git_conflicts`. -/
structure GitConflictInfo where
  has_conflicts : Bool
  conflicting_files : List String
  base_branch : String
  spec_branch : String
deriving DecidableEq, Repr

/-- The CONFLICT-line parsing loop: for every output line containing
`CONFLICT`, apply the regex extraction and append a nonempty, not yet
recorded path. -/
def parseConflictLines (extract : String → Option String)
    (out : List String) : List String :=
  out.foldl (fun acc line =>
    if containsSub "CONFLICT" line then
      match extract line with
      | some fp => if fp ≠ "" ∧ acc.contains fp = false then acc ++ [fp] else acc
      | none => acc
    else acc) []

/-- `_check_git_conflicts(project_dir, spec_name)`: resolve the base branch,
compute the merge base (failure returns the default no-conflict record),
resolve both tips, run `git merge-tree`; a nonzero exit marks conflicts and
the conflicting paths are parsed from the output, falling back to the
intersection of the two name-only diffs when parsing found nothing. -/
def check_git_conflicts (env : GitConflictEnv) (spec_name : String) :
    GitConflictInfo :=
  let spec_branch := "auto-claude/" ++ spec_name
  let base_branch := env.current_branch.getD "main"
  match env.merge_base with
  | none => ⟨false, [], base_branch, spec_branch⟩
  | some _ =>
    match env.main_commit, env.spec_commit with
    | some _, some _ =>
      if env.merge_tree_rc ≠ 0 then
        let parsed := parseConflictLines env.conflictExtract env.merge_tree_out
        let files := if parsed = [] then
            env.diff_main_files.filter (fun f => env.diff_spec_files.contains f)
          else parsed
        ⟨true, files, base_branch, spec_branch⟩
      else ⟨false, [], base_branch, spec_branch⟩
    | _, _ => ⟨false, [], base_branch, spec_branch⟩

/-! ## `_resolve_git_conflicts_with_ai`: filesystem event trace

Only the order of working-tree writes, deletions and stagings matters for
the ordering claim, so the function is embedded as the trace of those
events. Content lookups (`git show`) and existence tests are oracles; the
parallel merge phase is an oracle `mergeExec` standing for
`_run_parallel_merges` applied pointwise. -/

/-- A working-tree event issued by `_resolve_git_conflicts_with_ai`. -/
inductive FsEvent
  | write (p : String)
  | del (p : String)
  | stage (p : String)
deriving DecidableEq, Repr

/-- Environment of one `_resolve_git_conflicts_with_ai` run. -/
structure ResolveEnv where
  changed_files : List (String × String)
  conflicting_files : List String
  main_content : String → Option String
  wt_content : String → Option String
  base_content : String → Option String
  merge_base : Option String
  file_on_disk : String → Bool
  mergeExec : ParallelMergeTask → ParallelMergeResult
  spec_name : String

/-- Phase 1: copy the task's new files (status `A`, non-conflicting) first. -/
def resolvePhase1 (env : ResolveEnv) : List FsEvent :=
  (env.changed_files.filter (fun fs =>
      fs.2 == "A" && env.conflicting_files.contains fs.1 == false)).flatMap
    (fun fs =>
      match env.wt_content fs.1 with
      | some _ => [.write fs.1, .stage fs.1]
      | none => [])

/-- Categorisation of the conflicting files: `Sum.inl` is a simple merge
(`none` content meaning a deletion), `Sum.inr` a task for the model. -/
def resolveCategorize (env : ResolveEnv) :
    List (Sum (String × Option String) ParallelMergeTask) :=
  env.conflicting_files.filterMap (fun f =>
    let mc := env.main_content f
    let wc := env.wt_content f
    let bc := if env.merge_base.isSome then env.base_content f else none
    match mc, wc with
    | none, none => none
    | none, _ => some (.inl (f, wc))
    | some _, none => some (.inl (f, none))
    | some m, some w => some (.inr ⟨f, m, w, bc, env.spec_name⟩))

/-- The simple merges, in categorisation order. -/
def resolveSimples (env : ResolveEnv) : List (String × Option String) :=
  (resolveCategorize env).filterMap (fun x =>
    match x with | .inl s => some s | .inr _ => none)

/-- The merge tasks needing the model, in categorisation order. -/
def resolveAiTasks (env : ResolveEnv) : List ParallelMergeTask :=
  (resolveCategorize env).filterMap (fun x =>
    match x with | .inl _ => none | .inr t => some t)

/-- Phase 2: apply the simple merges (writes and deletions). -/
def resolvePhase2 (env : ResolveEnv) : List FsEvent :=
  (resolveSimples env).flatMap (fun s =>
    match s.2 with
    | some _ => [.write s.1, .stage s.1]
    | none => if env.file_on_disk s.1 then [.del s.1, .stage s.1] else [])

/-- Phase 3: write and stage every successful parallel merge result. -/
def resolvePhase3 (env : ResolveEnv) : List FsEvent :=
  ((resolveAiTasks env).map env.mergeExec).flatMap (fun r =>
    if r.success then [.write r.file_path, .stage r.file_path] else [])

/-- The early return on remaining conflicts: some parallel result failed. -/
def resolveStops (env : ResolveEnv) : Bool :=
  ((resolveAiTasks env).map env.mergeExec).any (fun r => r.success == false)

/-- Phase 4: remaining non-conflicting modified/deleted paths, in diff
order, deletions and writes interleaved as encountered. -/
def resolvePhase4 (env : ResolveEnv) : List FsEvent :=
  (env.changed_files.filter (fun fs =>
      env.conflicting_files.contains fs.1 == false && fs.2 ≠ "A")).flatMap
    (fun fs =>
      if fs.2 == "D" then
        if env.file_on_disk fs.1 then [.del fs.1, .stage fs.1] else []
      else
        match env.wt_content fs.1 with
        | some _ => [.write fs.1, .stage fs.1]
        | none => [])

/-- The full event trace of `_resolve_git_conflicts_with_ai`. -/
def resolveTrace (env : ResolveEnv) : List FsEvent :=
  resolvePhase1 env ++ resolvePhase2 env ++ resolvePhase3 env ++
    (if resolveStops env then [] else resolvePhase4 env)

/-- `true` when no write event occurs after any delete event (the
"deletions are applied last" reading of the ordering claim). -/
def noWriteAfterDel : List FsEvent → Bool
  | [] => true
  | .del _ :: rest =>
    rest.all (fun e => match e with | .write _ => false | _ => true) &&
      noWriteAfterDel rest
  | _ :: rest => noWriteAfterDel rest

/-- The event is a write of a path the task added (status `A`) outside the
conflicting set — the claim's "file the task added". -/
def isAddedWrite (env : ResolveEnv) (e : FsEvent) : Prop :=
  ∃ p, e = .write p ∧ (p, "A") ∈ env.changed_files ∧
    env.conflicting_files.contains p = false

/-- The event is a write belonging to a conflicting file's resolution or to
a non-conflicting modified file — what the claim orders after the adds. -/
def isResolutionOrModWrite (env : ResolveEnv) (e : FsEvent) : Prop :=
  ∃ p, e = .write p ∧
    (env.conflicting_files.contains p = true ∨
      (env.conflicting_files.contains p = false ∧
        ∃ st, (p, st) ∈ env.changed_files ∧ st ≠ "A"))

/-! ## `discard_existing_build` -/

/-- `discard_existing_build(project_dir, spec_name)`, modelled on the
decision it takes: `worktree_on` is the existence of the spec's worktree,
`user_input` the typed confirmation (`none` for `KeyboardInterrupt`). The
result is (returned boolean, whether the worktree was removed). -/
def discard_existing_build (worktree_on : Bool) (user_input : Option String) :
    Bool × Bool :=
  if worktree_on = false then (false, false)
  else
    match user_input with
    | none => (false, false)
    | some s =>
      if strLower (pyStrip s) = "delete" then (true, true)
      else (false, false)

/-! ## Concrete environments used to evaluate the embeddings -/

/-- A concrete worker environment: no git clean merge, permissive validator,
an equality-based line diff, an available client and empty model responses. -/
def baseWorkerEnv : WorkerEnv where
  gmf := fun _ _ _ => (2, "")
  validSyntax := fun _ _ => true
  diff := fun a b => if a = b then [] else ["@@"]
  clientAvailable := true
  bodyRaised := none
  parseConflicts := fun _ => []
  conflictResponse := ""
  extractResolutions := fun _ _ => []
  reassemble := fun m _ _ => m
  fullResponse := ""
  extractCodeBlock := fun _ => ""
  looksLikeCode := fun _ => false

/-- A concrete `_resolve_git_conflicts_with_ai` run: one added file, one
non-conflicting deletion, one non-conflicting modification and one
conflicting file that the model resolves. -/
def envC8 : ResolveEnv where
  changed_files := [("new.ts", "A"), ("gone.txt", "D"), ("mod.txt", "M"), ("c.py", "M")]
  conflicting_files := ["c.py"]
  main_content := fun p => if p = "c.py" then some "main" else none
  wt_content := fun p =>
    if p = "c.py" then some "wt"
    else if p = "new.ts" then some "n"
    else if p = "mod.txt" then some "m" else none
  base_content := fun _ => none
  merge_base := none
  file_on_disk := fun _ => true
  mergeExec := fun t => ⟨t.file_path, some "merged", true, none, false⟩
  spec_name := "t"

/-! # Theorems -/

/-- Joining the pieces of `splitLinesAux` recovers the input (keepends drops nothing). -/
theorem splitLinesAux_join (l acc : List Char) :
    (splitLinesAux l acc).flatten = acc.reverse ++ l := by
  induction l, acc using splitLinesAux.induct
  all_goals simp_all [splitLinesAux]

/-- `splitlines(keepends=True)` is injective: equal line lists force equal strings. -/
theorem pySplitLines_injective {s t : String} (h : pySplitLines s = pySplitLines t) :
    s = t := by
  have hdata : splitLinesAux s.data [] = splitLinesAux t.data [] := by
    have hmk : ∀ u v : List (List Char), u.map String.mk = v.map String.mk → u = v := by
      intro u v huv
      have hinj : Function.Injective String.mk := fun a b hab => by
        simpa using congrArg String.data hab
      exact List.map_injective_iff.mpr hinj huv
    exact hmk _ _ h
  have hj := congrArg List.flatten hdata
  rw [splitLinesAux_join, splitLinesAux_join] at hj
  have hsd : s.data = t.data := by simpa using hj
  cases s; cases t; simp_all

/-- C4: `_heuristic_merge` with a non-null base returns the worktree text
when the base-to-main line diff is empty, the main text when the
base-to-worktree line diff is empty, and `None` when both diffs are
non-empty; with a null base it returns the worktree text. The `difflib`
oracle is assumed sound: an empty diff only arises between equal line
lists. -/
theorem C4_heuristic_merge_spec
    (diff : List String → List String → List String)
    (hd : ∀ a b, diff a b = [] → a = b)
    (main worktree : String) :
    heuristic_merge diff main worktree none = some worktree ∧
    (∀ b, diff (pySplitLines b) (pySplitLines main) = [] →
      heuristic_merge diff main worktree (some b) = some worktree) ∧
    (∀ b, diff (pySplitLines b) (pySplitLines worktree) = [] →
      heuristic_merge diff main worktree (some b) = some main) ∧
    (∀ b, diff (pySplitLines b) (pySplitLines main) ≠ [] →
      diff (pySplitLines b) (pySplitLines worktree) ≠ [] →
      heuristic_merge diff main worktree (some b) = none) := by
  refine ⟨rfl, ?_, ?_, ?_⟩
  · intro b h
    simp [heuristic_merge, h]
  · intro b h
    by_cases h1 : diff (pySplitLines b) (pySplitLines main) = []
    · have hm : pySplitLines b = pySplitLines main := hd _ _ h1
      have hw : pySplitLines b = pySplitLines worktree := hd _ _ h
      have : main = worktree := pySplitLines_injective (hm.symm.trans hw)
      simp [heuristic_merge, h1, this, h]
    · simp [heuristic_merge, h1, h]
  · intro b h1 h2
    simp [heuristic_merge, h1, h2]

/-- C4 witness: the heuristic at concrete inputs, via the theorem. -/
theorem C4_witness :
    heuristic_merge (fun a b => if a = b then [] else ["@@"]) "x" "y" none = some "y" ∧
    heuristic_merge (fun a b => if a = b then [] else ["@@"]) "x" "y" (some "x") = some "y" := by
  have h := C4_heuristic_merge_spec (fun a b => if a = b then [] else ["@@"])
    (fun a b hab => by
      by_cases hq : a = b
      · exact hq
      · simp [hq] at hab) "x" "y"
  exact ⟨h.1, h.2.1 "x" (by simp)⟩

/-- C3: with an existing well-formed lock file, `MergeLock.__enter__`
reclaims (deletes and acquires) exactly when the recorded timestamp is
older than 300 s or the signal-0 probe of the recorded pid (0 when the
field is missing) fails, and raises `MergeLockError` in every other case.
The probe of pid 0 targets the caller's own process group and therefore
succeeds (`hk`). -/
theorem C3_stale_lock_reclaim_iff (kill_ok : Int → Bool) (hk : kill_ok 0 = true)
    (now : Int) (ts pid : Option Int) :
    (mergeLockEnter kill_ok now (some (.fields ts pid)) = .acquired true ↔
      staleOrOrphaned kill_ok now ts pid) ∧
    (mergeLockEnter kill_ok now (some (.fields ts pid)) = .rejected ↔
      ¬ staleOrOrphaned kill_ok now ts pid) := by
  simp only [mergeLockEnter, staleOrOrphaned, is_process_running]
  by_cases h1 : now - ts.getD 0 > MERGE_LOCK_TIMEOUT
  · simp [h1]
  · by_cases hp : pid.getD 0 = 0
    · simp [h1, hp, hk]
    · by_cases h2 : kill_ok (pid.getD 0) = false
      · simp [h1, hp, h2]
      · simp [h1, hp, h2]

/-- C3 witness: a lock file stamped at 0 probed at time 1000 is reclaimed. -/
theorem C3_witness :
    mergeLockEnter (fun p => p == 0) 1000 (some (.fields (some 0) (some 42))) =
      .acquired true :=
  (C3_stale_lock_reclaim_iff (fun p => p == 0) (by decide) 1000 (some 0)
    (some 42)).1.mpr (Or.inl (by norm_num [MERGE_LOCK_TIMEOUT]))

/-- C2: the check-then-create lock acquisition admits an interleaving in
which both processes observe no lock file, then both create it and proceed:
the state where both succeeded is reachable from the initial state, against
the at-most-one-survivor contract. -/
theorem C2_both_acquire_reachable :
    lockReachable false lockInit ⟨true, .succeeded, .succeeded⟩ := by
  refine Relation.ReflTransGen.head (LockStep.check1_absent lockInit rfl rfl) ?_
  refine Relation.ReflTransGen.head
    (LockStep.check2_absent ⟨false, .toCreate, .ready⟩ rfl rfl) ?_
  refine Relation.ReflTransGen.head
    (LockStep.create1 ⟨false, .toCreate, .toCreate⟩ rfl) ?_
  exact Relation.ReflTransGen.single
    (LockStep.create2 ⟨true, .succeeded, .toCreate⟩ rfl)

/-- C9 counterexample: typing `DELETE` deletes the worktree although the
typed confirmation differs from the literal string `delete`. -/
theorem C9_counterexample :
    discard_existing_build true (some "DELETE") = (true, true) ∧
      "DELETE" ≠ "delete" := by
  constructor
  · decide
  · decide

/-- C9 amended: `discard_existing_build` removes the worktree exactly when
it exists and the typed confirmation equals `delete` after stripping
whitespace and lower-casing; the returned boolean coincides with removal,
and interrupts (no input) never remove. -/
theorem C9_discard_requires_normalized_delete (worktree_on : Bool)
    (user_input : Option String) :
    (discard_existing_build worktree_on user_input).1 =
      (discard_existing_build worktree_on user_input).2 ∧
    ((discard_existing_build worktree_on user_input).2 = true ↔
      worktree_on = true ∧
        ∃ s, user_input = some s ∧ strLower (pyStrip s) = "delete") := by
  cases worktree_on with
  | false => simp [discard_existing_build]
  | true =>
    cases user_input with
    | none => simp [discard_existing_build]
    | some s =>
      by_cases h : strLower (pyStrip s) = "delete"
      · simp [discard_existing_build, h]
      · simp [discard_existing_build, h]

/-- C10 counterexample: the two wrappers disagree in each family the claim
asserts agreement for. With a null base, the `git_utils.py` wrapper runs
the merge against an empty base and reports its conflicts while the
shadowing `workspace.py` wrapper returns `(None, False)`. With exit code 2
and markers in the output (the normal outcome of two conflicts, since
`git merge-file` exits with the conflict count), `git_utils.py`'s
`returncode == 1` test yields `(stdout, False)` while `workspace.py`'s
`returncode > 0` test yields `(stdout, True)`. With exit code 1 and no
marker, `git_utils.py` yields `(stdout, True)` while `workspace.py` yields
`(None, False)`. -/
theorem C10_counterexample :
    (create_conflict_file_with_git
        (fun _ _ _ => (1, "<<<<<<< m\n=======\nw\n>>>>>>> t\n")) "m" "w" none ≠
      create_conflict_file_with_git_ws
        (fun _ _ _ => (1, "<<<<<<< m\n=======\nw\n>>>>>>> t\n")) "m" "w" none) ∧
    (create_conflict_file_with_git
        (fun _ _ _ => (2, "<<<<<<< m\n=======\nw\n>>>>>>> t\n")) "m" "w"
        (some "b") = (some "<<<<<<< m\n=======\nw\n>>>>>>> t\n", false) ∧
      create_conflict_file_with_git_ws
        (fun _ _ _ => (2, "<<<<<<< m\n=======\nw\n>>>>>>> t\n")) "m" "w"
        (some "b") = (some "<<<<<<< m\n=======\nw\n>>>>>>> t\n", true)) ∧
    (create_conflict_file_with_git (fun _ _ _ => (1, "plain\n")) "m" "w"
        (some "b") = (some "plain\n", true) ∧
      create_conflict_file_with_git_ws (fun _ _ _ => (1, "plain\n")) "m" "w"
        (some "b") = (none, false)) := by
  exact ⟨by decide, ⟨by decide, by decide⟩, by decide, by decide⟩

/-- C10 amended: the two wrappers agree whenever the base is non-null and
non-empty and `git merge-file` exits 0, or exits 1 with a `<<<<<<` marker
in its output. In each remaining case they differ, as the counterexample
exhibits: on a null base, on exit 1 without markers, and on exit codes
above 1, where `git_utils.py` reports `(stdout, False)` — its conflict flag
tests `returncode == 1` — while `workspace.py` reports `(stdout, True)`
with markers present and `(None, False)` without. -/
theorem C10_wrappers_agree_on_clean_and_marked (gmf : GitMergeFileOracle)
    (main wt b : String) (hb : b ≠ "")
    (h : (gmf main b wt).1 = 0 ∨
      ((gmf main b wt).1 = 1 ∧ containsSub "<<<<<<" (gmf main b wt).2 = true)) :
    create_conflict_file_with_git gmf main wt (some b) =
      create_conflict_file_with_git_ws gmf main wt (some b) := by
  have hbt : truthyO (some b) = true := by simp [truthyO, hb]
  rcases h with h0 | ⟨h1, hm⟩
  · simp [create_conflict_file_with_git, create_conflict_file_with_git_ws, hbt,
      hb, h0]
  · simp [create_conflict_file_with_git, create_conflict_file_with_git_ws, hbt,
      hb, h1, hm]

/-- C10 witness: both wrappers on a concrete clean merge, via the theorem. -/
theorem C10_witness :
    create_conflict_file_with_git (fun _ _ _ => (0, "ok")) "m" "w" (some "b") =
      create_conflict_file_with_git_ws (fun _ _ _ => (0, "ok")) "m" "w" (some "b") :=
  C10_wrappers_agree_on_clean_and_marked (fun _ _ _ => (0, "ok")) "m" "w" "b"
    (by decide) (Or.inl rfl)

/-- C5 counterexample: both sides changed `shared.py` and the merge would
conflict, yet with a failed merge-base computation `_check_git_conflicts`
reports no conflicts and an empty conflicting list. -/
theorem C5_counterexample :
    check_git_conflicts
      ⟨some "main", none, some "c1", some "c2", 1,
        ["CONFLICT (content): Merge conflict in shared.py"],
        ["shared.py"], ["shared.py"], fun _ => some "shared.py"⟩ "t1" =
      ⟨false, [], "main", "auto-claude/t1"⟩ := by
  decide

/-- C5 amended: whenever the merge-base computation fails,
`_check_git_conflicts` returns `has_conflicts = false` with an empty
`conflicting_files` list — overlapping paths are not treated as
conflicting. -/
theorem C5_missing_base_returns_no_conflicts (env : GitConflictEnv)
    (spec_name : String) (h : env.merge_base = none) :
    check_git_conflicts env spec_name =
      ⟨false, [], env.current_branch.getD "main", "auto-claude/" ++ spec_name⟩ := by
  unfold check_git_conflicts
  rw [h]

/-- C5 witness: the theorem applied to a concrete failed-merge-base run. -/
theorem C5_witness :
    check_git_conflicts
      ⟨some "dev", none, none, none, 0, [], [], [], fun _ => none⟩ "t2" =
      ⟨false, [], "dev", "auto-claude/t2"⟩ :=
  C5_missing_base_returns_no_conflicts
    ⟨some "dev", none, none, none, 0, [], [], [], fun _ => none⟩ "t2" rfl

/-- A truthy optional string is not `none`. -/
theorem truthyO_ne_none {o : Option String} (h : truthyO o = true) : o ≠ none := by
  cases o <;> simp_all [truthyO]

/-- The full-file model step reports the task's own path. -/
theorem workerFullFile_file_path (env : WorkerEnv) (task : ParallelMergeTask)
    (prev : Nat) : (workerFullFile env task prev).result.file_path = task.file_path := by
  unfold workerFullFile
  dsimp only
  repeat' split
  all_goals rfl

/-- The conflict-only model step reports the task's own path. -/
theorem workerConflictOnly_file_path (env : WorkerEnv) (task : ParallelMergeTask)
    (m : String) :
    (workerConflictOnly env task m).result.file_path = task.file_path := by
  unfold workerConflictOnly
  dsimp only
  repeat' split
  all_goals first | rfl | apply workerFullFile_file_path

/-- `_merge_file_with_ai_async` reports the task's own path. -/
theorem mergeFileWithAiAsync_file_path (env : WorkerEnv) (task : ParallelMergeTask) :
    (mergeFileWithAiAsync env task).result.file_path = task.file_path := by
  unfold mergeFileWithAiAsync
  dsimp only
  repeat' split
  all_goals
    first
      | rfl
      | apply workerConflictOnly_file_path
      | apply workerFullFile_file_path

/-- The full-file model step only succeeds with a merged body in hand. -/
theorem workerFullFile_success_content (env : WorkerEnv) (task : ParallelMergeTask)
    (prev : Nat) (h : (workerFullFile env task prev).result.success = true) :
    (workerFullFile env task prev).result.merged_content ≠ none := by
  revert h
  unfold workerFullFile
  dsimp only
  repeat' split
  all_goals intro h
  all_goals simp_all

/-- The conflict-only model step only succeeds with a merged body in hand. -/
theorem workerConflictOnly_success_content (env : WorkerEnv)
    (task : ParallelMergeTask) (m : String)
    (h : (workerConflictOnly env task m).result.success = true) :
    (workerConflictOnly env task m).result.merged_content ≠ none := by
  revert h
  unfold workerConflictOnly
  dsimp only
  repeat' split
  all_goals intro h
  all_goals
    first
      | exact workerFullFile_success_content env task _ h
      | simp_all

/-- C1 counterexample: a task whose two sides both hold `"x\n"` but whose
base is null reaches the model path — the worker issues a model call and,
with an unhelpful model, does not return the common text successfully.
Moreover, even with a truthy base, identical empty sides reach the model
path: the clean merge returns `""`, which fails the Python truthiness test
of the clean-merge branch, so a model call is issued as well. -/
theorem C1_counterexample :
    ((mergeFileWithAiAsync baseWorkerEnv ⟨"a.py", "x\n", "x\n", none, "t"⟩).aiCalls
        = 1 ∧
     (mergeFileWithAiAsync baseWorkerEnv
        ⟨"a.py", "x\n", "x\n", none, "t"⟩).result.success = false) ∧
    (mergeFileWithAiAsync { baseWorkerEnv with gmf := fun _ _ _ => (0, "") }
        ⟨"a.py", "", "", some "b\n", "t"⟩).aiCalls = 1 := by
  exact ⟨⟨by decide, by decide⟩, by decide⟩

/-- C1 amended: for a non-binary, size-bounded task whose two sides hold the
same non-empty text and whose base is non-null and non-empty, when
`git merge-file` returns the common text cleanly and the validator accepts
it, the worker returns the auto-merged (clean) success carrying that text,
with no model call. The non-emptiness of the common text is required: the
clean-merge branch tests Python truthiness of the merged body, so an empty
clean merge falls through to the model path (see the counterexample). -/
theorem C1_identical_sides_clean_with_base (env : WorkerEnv)
    (t b path sn : String)
    (hbin : is_binary_file path = false)
    (hsize : countNL t ≤ MAX_FILE_LINES_FOR_AI)
    (hb : b ≠ "") (ht : t ≠ "")
    (hgit : env.gmf t b t = (0, t))
    (hval : env.validSyntax path t = true) :
    mergeFileWithAiAsync env ⟨path, t, t, some b, sn⟩ =
      ⟨⟨path, some t, true, none, true⟩, 0⟩ := by
  have hns : ¬ MAX_FILE_LINES_FOR_AI < countNL t := Nat.not_lt.mpr hsize
  unfold mergeFileWithAiAsync create_conflict_file_with_git_ws
  simp [hbin, truthyO, hb, ht, hgit, hval, hns]

/-- C1 witness: the amended theorem at a concrete clean-merging oracle. -/
theorem C1_witness :
    mergeFileWithAiAsync { baseWorkerEnv with gmf := fun _ _ _ => (0, "x\n") }
        ⟨"a.py", "x\n", "x\n", some "base\n", "t"⟩ =
      ⟨⟨"a.py", some "x\n", true, none, true⟩, 0⟩ :=
  C1_identical_sides_clean_with_base
    { baseWorkerEnv with gmf := fun _ _ _ => (0, "x\n") }
    "x\n" "base\n" "a.py" "t" (by decide) (by decide) (by decide) (by decide)
    rfl rfl

/-- C6 counterexample: the exception handler stores the heuristic result, so
a failed merge carries non-null `merged_content` with `success = false`,
against the claimed iff invariant. -/
theorem C6_counterexample :
    (mergeFileWithAiAsync { baseWorkerEnv with bodyRaised := some "boom" }
        ⟨"a.py", "x\n", "w\n", none, "t"⟩).result.success = false ∧
    (mergeFileWithAiAsync { baseWorkerEnv with bodyRaised := some "boom" }
        ⟨"a.py", "x\n", "w\n", none, "t"⟩).result.merged_content = some "w\n" := by
  constructor <;> decide

/-- C6 amended: one direction of the invariant holds on every path — a
successful `ParallelMergeResult` always carries non-null `merged_content`;
the converse fails on the exception and model-unavailable paths, which
store the heuristic text while reporting failure. -/
theorem C6_success_implies_merged_content (env : WorkerEnv)
    (task : ParallelMergeTask)
    (h : (mergeFileWithAiAsync env task).result.success = true) :
    (mergeFileWithAiAsync env task).result.merged_content ≠ none := by
  revert h
  unfold mergeFileWithAiAsync
  dsimp only
  repeat' split
  all_goals intro h
  all_goals
    first
      | exact workerFullFile_success_content env task _ h
      | exact workerConflictOnly_success_content env task _ h
      | exact truthyO_ne_none h
      | (rename_i hcond
         rcases hg : (create_conflict_file_with_git_ws env.gmf task.main_content
             task.worktree_content task.base_content).1 with _ | v <;>
           simp_all [truthyO])

/-- C6 witness: the amended direction at a concrete successful run. -/
theorem C6_witness :
    (mergeFileWithAiAsync { baseWorkerEnv with clientAvailable := false }
        ⟨"a.py", "x\n", "w\n", none, "t"⟩).result.merged_content ≠ none :=
  C6_success_implies_merged_content
    { baseWorkerEnv with clientAvailable := false }
    ⟨"a.py", "x\n", "w\n", none, "t"⟩ (by decide)

/-- C7: `_run_parallel_merges` returns one result per task in input order —
the i-th result carries the i-th task's path — and a raised exception is
converted, for its own task only, into a failed result carrying the
message, while every other entry is the worker's result. -/
theorem C7_results_order_and_isolation (env : WorkerEnv)
    (raises : ParallelMergeTask → Option String)
    (tasks : List ParallelMergeTask) :
    (run_parallel_merges env raises tasks).length = tasks.length ∧
    ∀ i (hi : i < tasks.length)
      (hr : i < (run_parallel_merges env raises tasks).length),
      ((run_parallel_merges env raises tasks)[i].file_path =
        tasks[i].file_path) ∧
      (∀ msg, raises tasks[i] = some msg →
        (run_parallel_merges env raises tasks)[i] =
          ⟨tasks[i].file_path, none, false, some msg, false⟩) ∧
      (raises tasks[i] = none →
        (run_parallel_merges env raises tasks)[i] =
          (mergeFileWithAiAsync env tasks[i]).result) := by
  refine ⟨by simp [run_parallel_merges], ?_⟩
  intro i hi hr
  have hmap : (run_parallel_merges env raises tasks)[i] =
      (fun t => match workerCoroutine env raises t with
        | .ok r => r
        | .error e => ⟨t.file_path, none, false, some e, false⟩) tasks[i] := by
    simp [run_parallel_merges]
  rw [hmap]
  rcases hc : raises tasks[i] with _ | msg
  · simp [workerCoroutine, hc, mergeFileWithAiAsync_file_path]
  · simp [workerCoroutine, hc]

/-- C7 witness: a batch whose single worker raises still yields its entry as
a failed result carrying the message. -/
theorem C7_witness :
    (run_parallel_merges baseWorkerEnv (fun _ => some "boom")
        [⟨"a.py", "x", "w", none, "t"⟩]).get ⟨0, by decide⟩ =
      ⟨"a.py", none, false, some "boom", false⟩ := by
  have h := C7_results_order_and_isolation baseWorkerEnv (fun _ => some "boom")
    [⟨"a.py", "x", "w", none, "t"⟩]
  simpa using (h.2 0 (by decide) (by decide)).2.1 "boom" rfl

/-- Every phase-1 event is a write or staging of a path the task added
outside the conflicting set. -/
theorem mem_resolvePhase1 (env : ResolveEnv) (e : FsEvent)
    (he : e ∈ resolvePhase1 env) :
    ∃ p, (e = .write p ∨ e = .stage p) ∧ (p, "A") ∈ env.changed_files ∧
      env.conflicting_files.contains p = false := by
  simp only [resolvePhase1, List.mem_flatMap, List.mem_filter] at he
  obtain ⟨⟨p, st⟩, ⟨hmem, hcond⟩, hin⟩ := he
  simp only [Bool.and_eq_true, beq_iff_eq] at hcond
  obtain ⟨hA, hnc⟩ := hcond
  rcases hw : env.wt_content p with _ | c <;> simp only [hw] at hin
  · simp at hin
  · simp only [List.mem_cons, List.not_mem_nil, or_false] at hin
    subst hA
    exact ⟨p, hin, hmem, by simpa using hnc⟩

/-- Every simple merge's path is one of the conflicting files. -/
theorem mem_resolveSimples (env : ResolveEnv) (s : String × Option String)
    (hs : s ∈ resolveSimples env) :
    env.conflicting_files.contains s.1 = true := by
  simp only [resolveSimples, List.mem_filterMap] at hs
  obtain ⟨x, hx, hmatch⟩ := hs
  simp only [resolveCategorize, List.mem_filterMap] at hx
  obtain ⟨f, hf, hcat⟩ := hx
  rcases hmc : env.main_content f with _ | m <;>
    rcases hwc : env.wt_content f with _ | w <;>
      simp only [hmc, hwc] at hcat
  · exact absurd hcat (by simp)
  · obtain rfl := Option.some.inj hcat
    dsimp only at hmatch
    obtain rfl := Option.some.inj hmatch
    simpa using hf
  · obtain rfl := Option.some.inj hcat
    dsimp only at hmatch
    obtain rfl := Option.some.inj hmatch
    simpa using hf
  · obtain rfl := Option.some.inj hcat
    dsimp only at hmatch
    exact absurd hmatch (by simp)

/-- Every model merge task's path is one of the conflicting files. -/
theorem mem_resolveAiTasks (env : ResolveEnv) (t : ParallelMergeTask)
    (ht : t ∈ resolveAiTasks env) :
    env.conflicting_files.contains t.file_path = true := by
  simp only [resolveAiTasks, List.mem_filterMap] at ht
  obtain ⟨x, hx, hmatch⟩ := ht
  simp only [resolveCategorize, List.mem_filterMap] at hx
  obtain ⟨f, hf, hcat⟩ := hx
  rcases hmc : env.main_content f with _ | m <;>
    rcases hwc : env.wt_content f with _ | w <;>
      simp only [hmc, hwc] at hcat
  · exact absurd hcat (by simp)
  · obtain rfl := Option.some.inj hcat
    dsimp only at hmatch
    exact absurd hmatch (by simp)
  · obtain rfl := Option.some.inj hcat
    dsimp only at hmatch
    exact absurd hmatch (by simp)
  · obtain rfl := Option.some.inj hcat
    dsimp only at hmatch
    obtain rfl := Option.some.inj hmatch
    simpa using hf

/-- No phase-2 event writes a path the task added outside the conflicts. -/
theorem resolvePhase2_not_added (env : ResolveEnv) (e : FsEvent)
    (he : e ∈ resolvePhase2 env) : ¬ isAddedWrite env e := by
  intro hadd
  obtain ⟨p, hep, hpA, hnc⟩ := hadd
  simp only [resolvePhase2, List.mem_flatMap] at he
  obtain ⟨s, hs, hin⟩ := he
  have hc := mem_resolveSimples env s hs
  rcases s with ⟨q, _ | c⟩
  · dsimp only at hin
    split at hin
    · simp only [List.mem_cons, List.not_mem_nil, or_false] at hin
      rcases hin with h1 | h1 <;> subst hep <;> simp_all
    · simp at hin
  · simp only [List.mem_cons, List.not_mem_nil, or_false] at hin
    rcases hin with h1 | h1 <;> subst hep <;> simp_all

/-- No phase-3 event writes a path the task added outside the conflicts,
as long as the merge results carry their tasks' paths. -/
theorem resolvePhase3_not_added (env : ResolveEnv)
    (hfp : ∀ t, (env.mergeExec t).file_path = t.file_path) (e : FsEvent)
    (he : e ∈ resolvePhase3 env) : ¬ isAddedWrite env e := by
  intro hadd
  obtain ⟨p, hep, hpA, hnc⟩ := hadd
  simp only [resolvePhase3, List.mem_flatMap, List.mem_map] at he
  obtain ⟨r, ⟨tk, ht, hrt⟩, hin⟩ := he
  have hc := mem_resolveAiTasks env tk ht
  split at hin
  · simp only [List.mem_cons, List.not_mem_nil, or_false] at hin
    subst hrt
    rcases hin with h1 | h1 <;> subst hep <;>
      rw [hfp tk] at h1 <;> simp_all
  · simp at hin

/-- No phase-4 event writes a path the task added, when statuses are
recorded at most once per path. -/
theorem resolvePhase4_not_added (env : ResolveEnv)
    (hnd : (env.changed_files.map Prod.fst).Nodup) (e : FsEvent)
    (he : e ∈ resolvePhase4 env) : ¬ isAddedWrite env e := by
  intro hadd
  obtain ⟨p, hep, hpA, hnc⟩ := hadd
  simp only [resolvePhase4, List.mem_flatMap, List.mem_filter] at he
  obtain ⟨⟨q, st⟩, ⟨hmem, hcond⟩, hin⟩ := he
  simp only [Bool.and_eq_true, beq_iff_eq, decide_eq_true_eq] at hcond
  obtain ⟨hqnc, hstA⟩ := hcond
  split at hin
  · split at hin
    · simp only [List.mem_cons, List.not_mem_nil, or_false] at hin
      rcases hin with h1 | h1 <;> subst hep <;> simp_all
    · simp at hin
  · rcases hw : env.wt_content q with _ | c <;> simp only [hw] at hin
    · simp at hin
    · simp only [List.mem_cons, List.not_mem_nil, or_false] at hin
      rcases hin with h1 | h1 <;> subst hep
      · have hq : p = q := by simpa using h1
        subst hq
        have hqq := List.inj_on_of_nodup_map hnd hmem hpA rfl
        simp only [Prod.mk.injEq] at hqq
        exact hstA (by simpa using hqq.2)
      · simp at h1

/-- No phase-1 event is a write belonging to a conflicting resolution or a
modification, when statuses are recorded at most once per path. -/
theorem resolvePhase1_not_resolution (env : ResolveEnv)
    (hnd : (env.changed_files.map Prod.fst).Nodup) (e : FsEvent)
    (he : e ∈ resolvePhase1 env) : ¬ isResolutionOrModWrite env e := by
  intro hres
  obtain ⟨p, hep, hcases⟩ := hres
  obtain ⟨q, hq, hqA, hqnc⟩ := mem_resolvePhase1 env e he
  subst hep
  rcases hq with hq | hq
  · have hpq : p = q := by simpa using hq
    subst hpq
    rcases hcases with hc | ⟨_, st, hst, hstA⟩
    · simp_all
    · have hqq := List.inj_on_of_nodup_map hnd hst hqA rfl
      simp only [Prod.mk.injEq] at hqq
      exact hstA (by simpa using hqq.2)
  · simp at hq

/-- In a concatenation whose right part never satisfies `P` and whose left
part never satisfies `Q`, a `P`-position precedes every `Q`-position. -/
theorem append_pos_lt {α : Type} (P Q : α → Prop) (l₁ l₂ : List α)
    (hP : ∀ e ∈ l₂, ¬ P e) (hQ : ∀ e ∈ l₁, ¬ Q e)
    (i j : Nat) (hi : i < (l₁ ++ l₂).length) (hj : j < (l₁ ++ l₂).length)
    (hpi : P ((l₁ ++ l₂).get ⟨i, hi⟩)) (hqj : Q ((l₁ ++ l₂).get ⟨j, hj⟩)) :
    i < j := by
  have hlen : (l₁ ++ l₂).length = l₁.length + l₂.length := by simp
  have hi1 : i < l₁.length := by
    by_contra hcon
    push_neg at hcon
    have hlt : i - l₁.length < l₂.length := by omega
    have heq : (l₁ ++ l₂).get ⟨i, hi⟩ = l₂.get ⟨i - l₁.length, hlt⟩ := by
      simp only [List.get_eq_getElem]
      exact List.getElem_append_right hcon
    exact hP _ (List.get_mem _ _ _) (heq ▸ hpi)
  have hj1 : l₁.length ≤ j := by
    by_contra hcon
    push_neg at hcon
    have heq : (l₁ ++ l₂).get ⟨j, hj⟩ = l₁.get ⟨j, hcon⟩ := by
      simp only [List.get_eq_getElem]
      exact List.getElem_append_left hcon
    exact hQ _ (List.get_mem _ _ _) (heq ▸ hqj)
  omega

/-- C8 counterexample: the trace of a concrete run writes and stages the
added file first, but the non-conflicting deletion is applied before the
modified file's write — deletions are not last in the final write order. -/
theorem C8_counterexample :
    resolveTrace envC8 =
      [.write "new.ts", .stage "new.ts", .write "c.py", .stage "c.py",
       .del "gone.txt", .stage "gone.txt", .write "mod.txt", .stage "mod.txt"] ∧
    noWriteAfterDel (resolveTrace envC8) = false := by
  constructor <;> decide

/-- C8 amended: within one `_resolve_git_conflicts_with_ai` run, every write
of a file the task added (status `A`, non-conflicting) precedes every write
of a conflicting file's resolution and every write of a modified file;
deletions, however, are interleaved rather than applied last. -/
theorem C8_added_files_written_first (env : ResolveEnv)
    (hfp : ∀ t, (env.mergeExec t).file_path = t.file_path)
    (hnd : (env.changed_files.map Prod.fst).Nodup)
    (i j : Nat) (hi : i < (resolveTrace env).length)
    (hj : j < (resolveTrace env).length)
    (ha : isAddedWrite env ((resolveTrace env).get ⟨i, hi⟩))
    (hr : isResolutionOrModWrite env ((resolveTrace env).get ⟨j, hj⟩)) :
    i < j := by
  have htr : resolveTrace env = resolvePhase1 env ++
      (resolvePhase2 env ++ (resolvePhase3 env ++
        (if resolveStops env then [] else resolvePhase4 env))) := by
    simp [resolveTrace, List.append_assoc]
  have hrest : ∀ e ∈ resolvePhase2 env ++ (resolvePhase3 env ++
      (if resolveStops env then [] else resolvePhase4 env)),
      ¬ isAddedWrite env e := by
    intro e he
    rcases List.mem_append.mp he with h2 | h34
    · exact resolvePhase2_not_added env e h2
    · rcases List.mem_append.mp h34 with h3 | h4
      · exact resolvePhase3_not_added env hfp e h3
      · split at h4
        · simp at h4
        · exact resolvePhase4_not_added env hnd e h4
  have hleft : ∀ e ∈ resolvePhase1 env, ¬ isResolutionOrModWrite env e :=
    fun e he => resolvePhase1_not_resolution env hnd e he
  have hi2 : i < (resolvePhase1 env ++
      (resolvePhase2 env ++ (resolvePhase3 env ++
        (if resolveStops env then [] else resolvePhase4 env)))).length := by
    rw [← htr]; exact hi
  have hj2 : j < (resolvePhase1 env ++
      (resolvePhase2 env ++ (resolvePhase3 env ++
        (if resolveStops env then [] else resolvePhase4 env)))).length := by
    rw [← htr]; exact hj
  refine append_pos_lt (isAddedWrite env) (isResolutionOrModWrite env) _ _
    hrest hleft i j hi2 hj2 ?_ ?_
  · have hgi : (resolveTrace env).get ⟨i, hi⟩ = (resolvePhase1 env ++
        (resolvePhase2 env ++ (resolvePhase3 env ++
          (if resolveStops env then [] else resolvePhase4 env)))).get ⟨i, hi2⟩ := by
      simp only [List.get_eq_getElem]
      exact List.getElem_of_eq htr hi
    exact hgi ▸ ha
  · have hgj : (resolveTrace env).get ⟨j, hj⟩ = (resolvePhase1 env ++
        (resolvePhase2 env ++ (resolvePhase3 env ++
          (if resolveStops env then [] else resolvePhase4 env)))).get ⟨j, hj2⟩ := by
      simp only [List.get_eq_getElem]
      exact List.getElem_of_eq htr hj
    exact hgj ▸ hr

/-- C8 witness: in the concrete run, the added file's write (position 0)
precedes the conflicting resolution's write (position 2), by the theorem. -/
theorem C8_witness :
    isAddedWrite envC8 (.write "new.ts") ∧ (0 : Nat) < 2 := by
  constructor
  · exact ⟨"new.ts", rfl, by decide, by decide⟩
  · exact C8_added_files_written_first envC8 (fun t => rfl) (by decide) 0 2
      (by decide) (by decide)
      ⟨"new.ts", by decide, by decide, by decide⟩
      ⟨"c.py", by decide, Or.inl (by decide)⟩

end AutoClaude

